import Mathlib

/-!
Verification development for the thermal-calculator repository.

The Python sources (`node.py`, `mesh.py`, `boundary_conditions.py`) are
shallowly embedded below.  Machine floats are modelled by exact rationals,
sympy linear expressions by an explicit term-list representation, Python
exceptions by `Except String`, and the mutable 8-directional neighbor graph
by per-node maps from directions to grid positions (a reference to a node
object is modelled by the grid position the object was created at, which is
fixed for the lifetime of the object).
-/

namespace Thermal

/-- A grid position `(row i, column j)`. -/
abbrev Pos := Nat × Nat

/-- A sympy symbol `T_<m>_<n>`, identified by the two integer indices
`(int(x/delta_x), int(y/delta_y))` used in its name (`node.py`, line 19). -/
abbrev Sym := Int × Int

/-- Python `int()` truncation toward zero of an exact rational. -/
def truncInt (x : ℚ) : Int := x.num / (x.den : Int)

/-- The symbol of the node object created at grid position `p = (i, j)`:
its coordinates are `x = j*delta_x`, `y = i*delta_y`, so its symbol indices
are `(j, i)`. -/
def posSym (p : Pos) : Sym := ((p.2 : Int), (p.1 : Int))

/-- A linear sympy expression over node-temperature symbols: a list of
(symbol, coefficient) terms plus a constant.  Sum and scalar product are the
only operations the assembler uses; sympy keeps such expressions linear. -/
structure LinExpr where
  terms : List (Sym × ℚ)
  const : ℚ
deriving DecidableEq, Repr

namespace LinExpr

/-- The constant expression. -/
def ofRat (c : ℚ) : LinExpr := ⟨[], c⟩

/-- The expression consisting of a single symbol. -/
def sym (s : Sym) : LinExpr := ⟨[(s, 1)], 0⟩

/-- Sum of two linear expressions. -/
def add (a b : LinExpr) : LinExpr := ⟨a.terms ++ b.terms, a.const + b.const⟩

/-- Scalar multiple of a linear expression. -/
def smul (c : ℚ) (e : LinExpr) : LinExpr :=
  ⟨e.terms.map (fun t => (t.1, c * t.2)), c * e.const⟩

/-- Difference of two linear expressions. -/
def sub (a b : LinExpr) : LinExpr := a.add (smul (-1) b)

/-- Total coefficient of symbol `s` in the expression. -/
def coeff (e : LinExpr) (s : Sym) : ℚ :=
  e.terms.foldl (fun acc t => if t.1 = s then acc + t.2 else acc) 0

end LinExpr

/-- The closed set of boundary-condition variants
(`boundary_conditions.py`). -/
inductive BC where
  | constantTemperature (temperature : ℚ)
  | convection (h T_inf : ℚ)
  | heatFlux (heat_flux : ℚ)
deriving DecidableEq, Repr

/-- The eight neighbor directions of a node (`node.py`, lines 33-42). -/
inductive Dir where
  | up | down | left | right | left_down | left_up | right_down | right_up
deriving DecidableEq, Repr

/-- A node's neighbor map: one optional node reference per direction,
modelled as the referenced node's grid position. -/
structure Neighbors where
  up : Option Pos
  down : Option Pos
  left : Option Pos
  right : Option Pos
  left_down : Option Pos
  left_up : Option Pos
  right_down : Option Pos
  right_up : Option Pos
deriving DecidableEq, Repr

namespace Neighbors

/-- The neighbor map of a freshly constructed node: all entries `None`. -/
def empty : Neighbors := ⟨none, none, none, none, none, none, none, none⟩

/-- Dictionary lookup `self.neighbors[direction]`. -/
def get (nb : Neighbors) : Dir → Option Pos
  | .up => nb.up
  | .down => nb.down
  | .left => nb.left
  | .right => nb.right
  | .left_down => nb.left_down
  | .left_up => nb.left_up
  | .right_down => nb.right_down
  | .right_up => nb.right_up

/-- Dictionary assignment `self.neighbors[direction] = v`
(`Node.set_neighbor`; the key is always one of the eight directions). -/
def set (nb : Neighbors) (d : Dir) (v : Option Pos) : Neighbors :=
  match d with
  | .up => { nb with up := v }
  | .down => { nb with down := v }
  | .left => { nb with left := v }
  | .right => { nb with right := v }
  | .left_down => { nb with left_down := v }
  | .left_up => { nb with left_up := v }
  | .right_down => { nb with right_down := v }
  | .right_up => { nb with right_up := v }

end Neighbors

/-- The mutable state of a `Node` object (`node.py`, `BaseNode.__init__`
and `Node.__init__`). -/
structure NodeData where
  x : ℚ
  y : ℚ
  temperature : ℚ
  delta_x : ℚ
  delta_y : ℚ
  k : ℚ
  q_dot_gen : ℚ
  symbolic_temp : Sym
  boundary_conditions : List BC
  override : Option LinExpr
  neighbors : Neighbors
deriving DecidableEq, Repr

/-- `Node.__init__`: fresh node with no boundary conditions, no override,
empty neighbor map, and symbol `T_{int(x/delta_x)}_{int(y/delta_y)}`. -/
def mkNode (x y delta_x delta_y k q_dot_gen : ℚ) : NodeData :=
  { x := x, y := y, temperature := 0,
    delta_x := delta_x, delta_y := delta_y, k := k, q_dot_gen := q_dot_gen,
    symbolic_temp := (truncInt (x / delta_x), truncInt (y / delta_y)),
    boundary_conditions := [], override := none,
    neighbors := Neighbors.empty }

/-- `BoundaryCondition.get_contribution` for each variant
(`boundary_conditions.py`, lines 31-34, 50-51, 66-67). -/
def BC.contribution (bc : BC) (nd : NodeData) : LinExpr :=
  match bc with
  | .constantTemperature _ => LinExpr.ofRat 0
  | .convection h T_inf =>
      LinExpr.smul h ((LinExpr.ofRat T_inf).sub (LinExpr.sym nd.symbolic_temp))
  | .heatFlux heat_flux => LinExpr.ofRat heat_flux

/-- `isinstance(self.neighbors["left"], Node)` (`node.py`, line 72); the
only concrete `BaseNode` subclass in the repository is `Node`, so the check
holds exactly when the reference is set. -/
def hasLeft (nd : NodeData) : Bool := nd.neighbors.left.isSome

/-- `isinstance(self.neighbors["right"], Node)` (`node.py`, line 73). -/
def hasRight (nd : NodeData) : Bool := nd.neighbors.right.isSome

/-- `isinstance(self.neighbors["up"], Node)` (`node.py`, line 74). -/
def hasUp (nd : NodeData) : Bool := nd.neighbors.up.isSome

/-- `isinstance(self.neighbors["down"], Node)` (`node.py`, line 75). -/
def hasDown (nd : NodeData) : Bool := nd.neighbors.down.isSome

/-- Complete up-left quadrant flag (`node.py`, line 79). -/
def quadLU (nd : NodeData) : Bool :=
  nd.neighbors.left_up.isSome && hasLeft nd && hasUp nd

/-- Complete up-right quadrant flag (`node.py`, line 80). -/
def quadRU (nd : NodeData) : Bool :=
  nd.neighbors.right_up.isSome && hasRight nd && hasUp nd

/-- Complete down-left quadrant flag (`node.py`, line 81). -/
def quadLD (nd : NodeData) : Bool :=
  nd.neighbors.left_down.isSome && hasLeft nd && hasDown nd

/-- Complete down-right quadrant flag (`node.py`, line 82). -/
def quadRD (nd : NodeData) : Bool :=
  nd.neighbors.right_down.isSome && hasRight nd && hasDown nd

/-- `number_rects = left_up + right_up + left_down + right_down`
(`node.py`, line 123). -/
def quadCount (nd : NodeData) : Nat :=
  (quadLU nd).toNat + (quadRU nd).toNat + (quadLD nd).toNat + (quadRD nd).toNat

/-- The sequence of conditional assignments to the local variable `area`
(`node.py`, lines 125-135).  Python leaves `area` unassigned when no branch
fires; this is modelled by `none`. -/
def bcArea (lu ru ld rd : Bool) (dx dy : ℚ) : Option ℚ :=
  let nr : Nat := lu.toNat + ru.toNat + ld.toNat + rd.toNat
  let area : Option ℚ := none
  let area := if nr = 1 then some ((dx + dy) / 2) else area
  let area := if nr = 2 ∧ ((lu && ld) || (ru && rd)) = true then some dy else area
  let area := if nr = 2 ∧ ((lu && ru) || (ld && rd)) = true then some dx else area
  let area := if nr = 2 ∧ ((lu && rd) || (ru && ld)) = true then some (dx + dy) else area
  let area := if nr = 3 then some ((dx + dy) / 2) else area
  area

/-- The `area` local of `compute_finite_difference`, computed from the
node's quadrant flags and spacing. -/
def effArea (nd : NodeData) : Option ℚ :=
  bcArea (quadLU nd) (quadRU nd) (quadLD nd) (quadRD nd) nd.delta_x nd.delta_y

/-- Error message of `node.py`, line 120. -/
def bcCountMsg : String :=
  "Must have 0, 1, or 2 boundary conditions per node"

/-- Error message of `node.py`, line 137. -/
def interiorMsg : String :=
  "Cannot have boundary conditions in interior nodes"

/-- Python `UnboundLocalError` raised when line 151 or 153 of `node.py`
reads the local `area` without any of lines 125-135 having assigned it. -/
def areaUnboundMsg : String :=
  "UnboundLocalError: local variable area referenced before assignment"

/-- `neighbor.symbolic_temp` for a neighbor reference.  Every use in
`compute_finite_difference` is guarded by a quadrant flag that implies the
reference is set, so the `none` case (where Python would raise an
`AttributeError`) is unreachable. -/
def symAt (o : Option Pos) : Sym :=
  match o with
  | some p => posSym p
  | none => (0, 0)

/-- The loop over `self.boundary_conditions` (`node.py`, lines 143-153).
`total` is `len(self.boundary_conditions)` (the full list length, which is
what the loop body tests), `area` the optional local `area`, and `acc` the
running `boundary_contribution`.  A `ConstantTemperatureBC` breaks out of
the loop, recording its temperature; any other condition scales its
contribution by `area` (or half of it when two conditions are attached),
raising `UnboundLocalError` when `area` was never assigned. -/
def bcLoop (nd : NodeData) (total : Nat) (area : Option ℚ) :
    LinExpr → List BC → Except String (LinExpr × Option ℚ)
  | acc, [] => .ok (acc, none)
  | acc, bc :: rest =>
    match bc with
    | .constantTemperature v => .ok (acc, some v)
    | _ =>
      if total = 1 then
        match area with
        | none => .error areaUnboundMsg
        | some a =>
            bcLoop nd total area (acc.add (LinExpr.smul a (bc.contribution nd))) rest
      else if total = 2 then
        match area with
        | none => .error areaUnboundMsg
        | some a =>
            bcLoop nd total area
              (acc.add (LinExpr.smul ((1 : ℚ) / 2 * a) (bc.contribution nd))) rest
      else
        bcLoop nd total area acc rest

/-- The quadrant conduction and generation contributions
(`node.py`, lines 84-117): `heat_transfer + heat_gen`. -/
def baseEquation (nd : NodeData) : LinExpr :=
  let ht0 : LinExpr := LinExpr.ofRat 0
  let hg0 : LinExpr := LinExpr.ofRat 0
  let condL : LinExpr :=
    LinExpr.smul (nd.k * (nd.delta_y / 2) / nd.delta_x)
      ((LinExpr.sym (symAt nd.neighbors.left)).sub (LinExpr.sym nd.symbolic_temp))
  let condR : LinExpr :=
    LinExpr.smul (nd.k * (nd.delta_y / 2) / nd.delta_x)
      ((LinExpr.sym (symAt nd.neighbors.right)).sub (LinExpr.sym nd.symbolic_temp))
  let condU : LinExpr :=
    LinExpr.smul (nd.k * (nd.delta_x / 2) / nd.delta_y)
      ((LinExpr.sym (symAt nd.neighbors.up)).sub (LinExpr.sym nd.symbolic_temp))
  let condD : LinExpr :=
    LinExpr.smul (nd.k * (nd.delta_x / 2) / nd.delta_y)
      ((LinExpr.sym (symAt nd.neighbors.down)).sub (LinExpr.sym nd.symbolic_temp))
  let gen : LinExpr :=
    LinExpr.ofRat (nd.q_dot_gen * (1 / 4) * nd.delta_x * nd.delta_y)
  let ht1 := if quadLU nd then (ht0.add condL).add condU else ht0
  let hg1 := if quadLU nd then hg0.add gen else hg0
  let ht2 := if quadRU nd then (ht1.add condR).add condU else ht1
  let hg2 := if quadRU nd then hg1.add gen else hg1
  let ht3 := if quadLD nd then (ht2.add condL).add condD else ht2
  let hg3 := if quadLD nd then hg2.add gen else hg2
  let ht4 := if quadRD nd then (ht3.add condR).add condD else ht3
  let hg4 := if quadRD nd then hg3.add gen else hg3
  ht4.add hg4

/-- `Node.compute_finite_difference` (`node.py`, lines 59-161). -/
def computeFD (nd : NodeData) : Except String LinExpr :=
  match nd.override with
  | some e => .ok e
  | none =>
    -- quadrant conduction and generation contributions (lines 84-117)
    let base_equation := baseEquation nd
    -- line 119: boundary-condition count check
    if ¬(nd.boundary_conditions.length = 0 ∨ nd.boundary_conditions.length = 1 ∨
          nd.boundary_conditions.length = 2) then
      .error bcCountMsg
    else
      -- lines 123-135: number_rects and area
      let number_rects := quadCount nd
      let area := effArea nd
      -- line 136: interior-node check
      if number_rects = 4 ∧ nd.boundary_conditions.length > 0 then
        .error interiorMsg
      else
        -- lines 139-161: boundary-condition processing and final equation
        match bcLoop nd nd.boundary_conditions.length area (LinExpr.ofRat 0)
            nd.boundary_conditions with
        | .error e => .error e
        | .ok (_, some v) =>
            .ok ((LinExpr.sym nd.symbolic_temp).sub (LinExpr.ofRat v))
        | .ok (boundary_contribution, none) =>
            .ok (base_equation.add boundary_contribution)

/-- The value of the first `ConstantTemperatureBC` in a boundary-condition
list, if any. -/
def firstConstTemp : List BC → Option ℚ
  | [] => none
  | .constantTemperature v :: _ => some v
  | _ :: rest => firstConstTemp rest

/-- `isinstance(bc, ConstantTemperatureBC)`. -/
def BC.isConstTemp : BC → Bool
  | .constantTemperature _ => true
  | _ => false

/-- The state of a `Mesh` object (`mesh.py`, lines 12-28): a fixed-size 2D
array of optional cells.  The Python grid is built with exactly
`height` rows of `width` slots and is never resized, so the grid is
modelled as a total function on in-range indices. -/
structure Mesh where
  width : Nat
  height : Nat
  delta_x : ℚ
  delta_y : ℚ
  nodes : Fin height → Fin width → Option NodeData

/-- The content of grid slot `(i, j)`, or `none` when out of range. -/
def nodeAt (msh : Mesh) (i j : Nat) : Option NodeData :=
  if h : i < msh.height ∧ j < msh.width then msh.nodes ⟨i, h.1⟩ ⟨j, h.2⟩ else none

/-- One iteration of the inner loop of `Mesh.connect_neighbors`
(`mesh.py`, lines 55-61): the reference stored for offset `(di, dj)` from
cell `(i, j)` — the slot content when `(i+di, j+dj)` is in bounds (which is
`None` when that slot is vacant), `None` otherwise. -/
def nbrRef (msh : Mesh) (i j : Nat) (di dj : Int) : Option Pos :=
  let ni : Int := (i : Int) + di
  let nj : Int := (j : Int) + dj
  if h : 0 ≤ ni ∧ ni < (msh.height : Int) ∧ 0 ≤ nj ∧ nj < (msh.width : Int) then
    if (msh.nodes ⟨ni.toNat, by omega⟩ ⟨nj.toNat, by omega⟩).isSome then
      some (ni.toNat, nj.toNat)
    else none
  else none

/-- The neighbor map `Mesh.connect_neighbors` installs at cell `(i, j)`,
one entry per direction offset of `mesh.py`, lines 33-42. -/
def buildNbrs (msh : Mesh) (i j : Nat) : Neighbors where
  down := nbrRef msh i j (-1) 0
  up := nbrRef msh i j 1 0
  left := nbrRef msh i j 0 (-1)
  right := nbrRef msh i j 0 1
  left_down := nbrRef msh i j (-1) (-1)
  left_up := nbrRef msh i j 1 (-1)
  right_down := nbrRef msh i j (-1) 1
  right_up := nbrRef msh i j 1 1

/-- `Mesh.connect_neighbors` (`mesh.py`, lines 30-61): clears every present
cell's links and rebuilds them from scratch by bounds-checking each of the
8 offsets; the two passes collapse to installing `buildNbrs` at every
present cell (out-of-bounds offsets stay cleared). -/
def connect_neighbors (msh : Mesh) : Mesh :=
  { msh with nodes := fun i j =>
      ((msh.nodes i j).map
        (fun nd => { nd with neighbors := buildNbrs msh i.val j.val })) }

/-- `Mesh.__init__` (`mesh.py`, lines 13-28): allocate the grid through the
factory on a uniform lattice, then connect neighbors. -/
def mkMesh (width height : Nat) (delta_x delta_y : ℚ)
    (node_factory : ℚ → ℚ → ℚ → ℚ → NodeData) : Mesh :=
  connect_neighbors
    { width := width, height := height, delta_x := delta_x, delta_y := delta_y,
      nodes := fun i j =>
        some (node_factory ((j.val : ℚ) * delta_x) ((i.val : ℚ) * delta_y)
          delta_x delta_y) }

/-- `Mesh.__getitem__` (`mesh.py`, lines 64-72) for a two-element tuple
`(m, n)`: `n` is checked against the height and `m` against the width, and
the slot content `self.nodes[n][m]` is returned (which may be `None` for a
vacated slot); otherwise an `IndexError` is raised. -/
def mGet (msh : Mesh) (m n : Int) : Except String (Option NodeData) :=
  if h : 0 ≤ n ∧ n < (msh.height : Int) ∧ 0 ≤ m ∧ m < (msh.width : Int) then
    .ok (msh.nodes ⟨n.toNat, by omega⟩ ⟨m.toNat, by omega⟩)
  else
    .error "Mesh index out of range"

/-- The row-major list of present cells that pass the `isinstance(node,
Node)` filter (the traversal shared by `get_finite_difference_equations`,
`build_matrix_equation` and `solve` in `mesh.py`). -/
def activeNodes (msh : Mesh) : List NodeData :=
  (List.finRange msh.height).flatMap
    (fun i => (List.finRange msh.width).filterMap (fun j => msh.nodes i j))

/-- The equation-collecting loop: compute each active cell's equation in
traversal order, propagating the first raised exception. -/
def computeAll : List NodeData → Except String (List LinExpr)
  | [] => .ok []
  | nd :: rest =>
    match computeFD nd with
    | .error e => .error e
    | .ok e =>
      match computeAll rest with
      | .error e2 => .error e2
      | .ok es => .ok (e :: es)

/-- `Mesh.get_finite_difference_equations` (`mesh.py`, lines 74-80). -/
def get_finite_difference_equations (msh : Mesh) : Except String (List LinExpr) :=
  computeAll (activeNodes msh)

/-- The symbol-collecting loop of `Mesh.build_matrix_equation`
(`mesh.py`, lines 83-91): row-major traversal appending each active cell's
temperature symbol. -/
def meshSymbols (msh : Mesh) : List Sym :=
  (List.finRange msh.height).flatMap
    (fun i => (List.finRange msh.width).filterMap
      (fun j => (msh.nodes i j).map (fun nd => nd.symbolic_temp)))

/-- External collaborator `sympy.linear_eq_to_matrix`, modelled by its
documented contract (spec section 6): row `i` of `A` holds the coefficients
of equation `i` on each unknown of `syms` in order, and `b` holds each
equation's constant term moved, negated, to the right-hand side. -/
def linear_eq_to_matrix (eqs : List LinExpr) (syms : List Sym) :
    List (List ℚ) × List ℚ :=
  (eqs.map (fun e => syms.map (fun s => e.coeff s)), eqs.map (fun e => -e.const))

/-- `Mesh.build_matrix_equation` (`mesh.py`, lines 81-97). -/
def build_matrix_equation (msh : Mesh) :
    Except String (List (List ℚ) × List Sym × List ℚ) := do
  let symbols := meshSymbols msh
  let equations ← get_finite_difference_equations msh
  let p := linear_eq_to_matrix equations symbols
  .ok (p.1, symbols, p.2)

/-- One iteration of the loop of `Mesh._clear_neighbor_references`
(`mesh.py`, lines 205-210): if `(i+di, j+dj)` is in bounds and holds a
cell, clear that cell's `rd` link. -/
def clearNbrAt (msh : Mesh) (i j : Nat) (di dj : Int) (rd : Dir) : Mesh :=
  let ni : Int := (i : Int) + di
  let nj : Int := (j : Int) + dj
  if 0 ≤ ni ∧ ni < (msh.height : Int) ∧ 0 ≤ nj ∧ nj < (msh.width : Int) then
    { msh with nodes := fun a b =>
        (if (a.val : Int) = ni ∧ (b.val : Int) = nj then
          ((msh.nodes a b).map
            (fun nd => { nd with neighbors := nd.neighbors.set rd none }))
        else msh.nodes a b) }
  else msh

/-- `Mesh._clear_neighbor_references` (`mesh.py`, lines 191-210): the loop
over the literal 8-entry `direction_map`, unrolled in list order. -/
def clear_neighbor_references (msh : Mesh) (i j : Nat) : Mesh :=
  let m1 := clearNbrAt msh i j (-1) 0 .up
  let m2 := clearNbrAt m1 i j 1 0 .down
  let m3 := clearNbrAt m2 i j 0 (-1) .right
  let m4 := clearNbrAt m3 i j 0 1 .left
  let m5 := clearNbrAt m4 i j (-1) (-1) .right_up
  let m6 := clearNbrAt m5 i j 1 (-1) .right_down
  let m7 := clearNbrAt m6 i j (-1) 1 .left_up
  let m8 := clearNbrAt m7 i j 1 1 .left_down
  m8

/-- Vacating a slot: `mesh.nodes[i][j] = None` (as done in `main.py`,
lines 36-37, after clearing the neighbor references). -/
def removeAt (msh : Mesh) (i j : Nat) : Mesh :=
  { msh with nodes := fun a b =>
      if a.val = i ∧ b.val = j then none else msh.nodes a b }

/-- The reference stored in direction `d` by the cell at `(i, j)`, or
`none` when the slot is vacant or out of range. -/
def neighborRefAt (msh : Mesh) (i j : Nat) (d : Dir) : Option Pos :=
  match nodeAt msh i j with
  | some nd => nd.neighbors.get d
  | none => none

/-- Row offset installed by `connect_neighbors` for each direction
(`mesh.py`, lines 33-42). -/
def connDi : Dir → Int
  | .down => -1
  | .up => 1
  | .left => 0
  | .right => 0
  | .left_down => -1
  | .left_up => 1
  | .right_down => -1
  | .right_up => 1

/-- Column offset installed by `connect_neighbors` for each direction. -/
def connDj : Dir → Int
  | .down => 0
  | .up => 0
  | .left => -1
  | .right => 1
  | .left_down => -1
  | .left_up => -1
  | .right_down => 1
  | .right_up => 1

/-! Concrete inputs used to evaluate the definitions on closed cases. -/

/-- A complete 8-neighbor map around position `(1, 1)`. -/
def fullNbrs : Neighbors where
  up := some (2, 1)
  down := some (0, 1)
  left := some (1, 0)
  right := some (1, 2)
  left_down := some (0, 0)
  left_up := some (2, 0)
  right_down := some (0, 2)
  right_up := some (2, 2)

/-- An interior node (all four quadrants complete) carrying a
constant-temperature boundary condition. -/
def nodeC1cx : NodeData :=
  { mkNode 1 1 1 1 1 0 with
    boundary_conditions := [.constantTemperature 5], neighbors := fullNbrs }

/-- A node whose only boundary condition fixes its temperature at 100. -/
def nodeC1w : NodeData :=
  { mkNode 0 0 1 1 1 0 with boundary_conditions := [.constantTemperature 100] }

/-- A left-boundary node: both right-side quadrants complete, spacing
`delta_x = 1`, `delta_y = 2`, one heat-flux condition. -/
def nodeC2w : NodeData :=
  { mkNode 1 2 1 2 1 0 with
    boundary_conditions := [.heatFlux 1],
    neighbors :=
      { up := some (2, 1), down := some (0, 1), left := none, right := some (1, 2),
        left_down := none, left_up := none, right_down := some (0, 2),
        right_up := some (2, 2) } }

/-- A node with an override and three boundary conditions attached. -/
def nodeC4cx : NodeData :=
  { mkNode 0 0 1 1 1 0 with
    override := some (LinExpr.ofRat 7),
    boundary_conditions := [.heatFlux 1, .heatFlux 2, .heatFlux 3] }

/-- A node without override carrying three boundary conditions. -/
def nodeC4w : NodeData :=
  { mkNode 0 0 1 1 1 0 with
    boundary_conditions := [.heatFlux 1, .heatFlux 1, .heatFlux 1] }

/-- A node whose up-left quadrant is complete. -/
def nodeC8w : NodeData :=
  { mkNode 1 1 1 1 1 0 with
    neighbors :=
      { up := some (2, 1), down := none, left := some (1, 0), right := none,
        left_down := none, left_up := some (2, 0), right_down := none,
        right_up := none } }

/-- An isolated node (no complete quadrant) with one heat-flux condition. -/
def nodeC9w : NodeData :=
  { mkNode 0 0 1 1 1 0 with boundary_conditions := [.heatFlux 10] }

/-- An interior node with an override and three boundary conditions. -/
def nodeC10w : NodeData :=
  { mkNode 1 1 1 1 1 0 with
    override := some (LinExpr.ofRat 3),
    boundary_conditions := [.heatFlux 1, .heatFlux 2, .heatFlux 3],
    neighbors := fullNbrs }

/-- Default node factory: unit conductivity, no generation. -/
def demoFactory : ℚ → ℚ → ℚ → ℚ → NodeData :=
  fun x y dx dy => mkNode x y dx dy 1 0

/-- A 2-wide, 1-tall connected mesh. -/
def meshC3 : Mesh := mkMesh 2 1 1 1 demoFactory

/-- A cell with a literal override equation `5 = 0` and symbol `T_0_0`. -/
def nodeC5a : NodeData :=
  { x := 0, y := 0, temperature := 0, delta_x := 1, delta_y := 1, k := 1,
    q_dot_gen := 0, symbolic_temp := (0, 0), boundary_conditions := [],
    override := some ⟨[], 5⟩, neighbors := Neighbors.empty }

/-- A cell with a literal override equation `-3 = 0` and symbol `T_1_0`. -/
def nodeC5b : NodeData :=
  { x := 1, y := 0, temperature := 0, delta_x := 1, delta_y := 1, k := 1,
    q_dot_gen := 0, symbolic_temp := (1, 0), boundary_conditions := [],
    override := some ⟨[], -3⟩, neighbors := Neighbors.empty }

/-- A 2-wide, 1-tall mesh whose two cells carry override equations. -/
def meshC5 : Mesh :=
  { width := 2, height := 1, delta_x := 1, delta_y := 1,
    nodes := fun _ j => if j.val = 0 then some nodeC5a else some nodeC5b }

/-- A 2-wide, 2-tall connected mesh. -/
def meshC6 : Mesh := mkMesh 2 2 1 1 demoFactory

end Thermal

deriving instance DecidableEq for Except

namespace Thermal

/-! Helper lemmas. -/

/-- If all four quadrant flags are down, the local `area` is never
assigned. -/
theorem effArea_of_count_zero (nd : NodeData) (h : quadCount nd = 0) :
    effArea nd = none := by
  unfold quadCount at h
  cases h1 : quadLU nd <;> cases h2 : quadRU nd <;> cases h3 : quadLD nd <;>
      cases h4 : quadRD nd <;> simp_all [effArea, bcArea]

/-- With at least one and at most three complete quadrants, the local
`area` is assigned by one of the branches of lines 125-135. -/
theorem effArea_of_count_mid (nd : NodeData) (h0 : quadCount nd ≠ 0)
    (h4 : quadCount nd ≠ 4) : ∃ a, effArea nd = some a := by
  unfold quadCount at h0 h4
  cases h1 : quadLU nd <;> cases h2 : quadRU nd <;> cases h3 : quadLD nd <;>
      cases h4 : quadRD nd <;> simp_all [effArea, bcArea]

/-- A `ConstantTemperatureBC` at the front of the loop breaks immediately,
recording its temperature. -/
theorem bcLoop_const_cons (nd : NodeData) (total : Nat) (area : Option ℚ)
    (acc : LinExpr) (v : ℚ) (rest : List BC) :
    bcLoop nd total area acc (.constantTemperature v :: rest) = .ok (acc, some v) :=
  rfl

/-- A non-constant-temperature condition at the front of the loop, with two
conditions attached and `area` assigned, accumulates half the exposed
area. -/
theorem bcLoop_nonconst_cons_two (nd : NodeData) (a : ℚ) (acc : LinExpr)
    (b : BC) (rest : List BC) (hb : b.isConstTemp = false) :
    bcLoop nd 2 (some a) acc (b :: rest) =
      bcLoop nd 2 (some a)
        (acc.add (LinExpr.smul ((1 : ℚ) / 2 * a) (b.contribution nd))) rest := by
  cases b with
  | constantTemperature v => simp [BC.isConstTemp] at hb
  | convection h T_inf => simp [bcLoop]
  | heatFlux q => simp [bcLoop]

/-- A non-constant-temperature condition at the front of the loop with
`area` unassigned raises `UnboundLocalError`. -/
theorem bcLoop_area_none (nd : NodeData) (total : Nat) (acc : LinExpr)
    (b : BC) (rest : List BC) (hb : b.isConstTemp = false)
    (ht : total = 1 ∨ total = 2) :
    bcLoop nd total none acc (b :: rest) = .error areaUnboundMsg := by
  rcases ht with h | h <;> subst h <;> cases b <;>
    simp [bcLoop, BC.isConstTemp] at hb ⊢

/-- With override unset and both structural checks passing,
`compute_finite_difference` reduces to the boundary-condition loop followed
by the constant-temperature dispatch. -/
theorem computeFD_eq_branch (nd : NodeData) (hov : nd.override = none)
    (hlen : nd.boundary_conditions.length = 0 ∨ nd.boundary_conditions.length = 1 ∨
      nd.boundary_conditions.length = 2)
    (hq : ¬(quadCount nd = 4 ∧ nd.boundary_conditions.length > 0)) :
    computeFD nd =
      match bcLoop nd nd.boundary_conditions.length (effArea nd) (LinExpr.ofRat 0)
          nd.boundary_conditions with
      | .error e => .error e
      | .ok (_, some v) => .ok ((LinExpr.sym nd.symbolic_temp).sub (LinExpr.ofRat v))
      | .ok (bcc, none) => .ok ((baseEquation nd).add bcc) := by
  unfold computeFD
  rw [hov]
  rw [if_neg (not_not_intro hlen), if_neg hq]

/-! Claim theorems. -/

/-- C8: each complete-quadrant flag computed during equation assembly
implies that the quadrant's two orthogonal neighbors and its diagonal
neighbor are present as ordinary cells, and a quadrant is never complete
while one of its orthogonal neighbors is absent (diagonal presence alone
never suffices). -/
theorem quad_flags_imply_orthogonal (nd : NodeData) :
    ((quadLU nd = true →
        nd.neighbors.left_up.isSome = true ∧ hasLeft nd = true ∧ hasUp nd = true) ∧
     (quadRU nd = true →
        nd.neighbors.right_up.isSome = true ∧ hasRight nd = true ∧ hasUp nd = true) ∧
     (quadLD nd = true →
        nd.neighbors.left_down.isSome = true ∧ hasLeft nd = true ∧ hasDown nd = true) ∧
     (quadRD nd = true →
        nd.neighbors.right_down.isSome = true ∧ hasRight nd = true ∧ hasDown nd = true)) ∧
    ((hasLeft nd = false ∨ hasUp nd = false → quadLU nd = false) ∧
     (hasRight nd = false ∨ hasUp nd = false → quadRU nd = false) ∧
     (hasLeft nd = false ∨ hasDown nd = false → quadLD nd = false) ∧
     (hasRight nd = false ∨ hasDown nd = false → quadRD nd = false)) := by
  unfold quadLU quadRU quadLD quadRD
  constructor
  · refine ⟨?_, ?_, ?_, ?_⟩ <;> intro h <;>
      simp only [Bool.and_eq_true] at h <;> exact ⟨h.1.1, h.1.2, h.2⟩
  · refine ⟨?_, ?_, ?_, ?_⟩ <;> rintro (h | h) <;> simp [h]

/-- C8 witness: a concrete node with a complete up-left quadrant has its
left and up neighbors present. -/
theorem quad_flags_imply_orthogonal_witness :
    nodeC8w.neighbors.left_up.isSome = true ∧ hasLeft nodeC8w = true ∧
      hasUp nodeC8w = true :=
  (quad_flags_imply_orthogonal nodeC8w).1.1 (by decide)

/-- C10: a node whose override is set returns the override immediately,
bypassing every failure check. -/
theorem override_bypasses_checks (nd : NodeData) (e : LinExpr)
    (hov : nd.override = some e) : computeFD nd = .ok e := by
  unfold computeFD
  rw [hov]

/-- C10 witness: a concrete node with an override, three boundary
conditions (a count outside \x7b0, 1, 2\x7d) and four complete quadrants
returns the override without error. -/
theorem override_bypasses_checks_witness :
    computeFD nodeC10w = .ok (LinExpr.ofRat 3) ∧
      nodeC10w.boundary_conditions.length = 3 ∧ quadCount nodeC10w = 4 :=
  ⟨override_bypasses_checks nodeC10w (LinExpr.ofRat 3) rfl, rfl, by decide⟩

/-- C9: with override unset, zero complete quadrants, and one or two
boundary conditions none of which is a `ConstantTemperatureBC`, the local
`area` is read without ever having been assigned, so the call fails with an
unbound-variable error. -/
theorem zero_quadrant_area_unbound (nd : NodeData)
    (hov : nd.override = none)
    (hq : quadCount nd = 0)
    (hlen : nd.boundary_conditions.length = 1 ∨ nd.boundary_conditions.length = 2)
    (hnc : ∀ bc ∈ nd.boundary_conditions, bc.isConstTemp = false) :
    computeFD nd = .error areaUnboundMsg := by
  rw [computeFD_eq_branch nd hov (Or.inr hlen)
    (fun h => by rw [hq] at h; exact absurd h.1 (by omega))]
  rw [effArea_of_count_zero nd hq]
  rcases hlen with h1 | h2
  · obtain ⟨b, hb⟩ := List.length_eq_one.mp h1
    rw [h1, hb]
    rw [bcLoop_area_none nd _ _ b [] (hnc b (by rw [hb]; exact List.mem_singleton_self b))
      (Or.inl rfl)]
  · obtain ⟨b1, b2, hb⟩ := List.length_eq_two.mp h2
    rw [h2, hb]
    rw [bcLoop_area_none nd _ _ b1 [b2]
      (hnc b1 (by rw [hb]; exact List.mem_cons_self b1 [b2]))
      (Or.inr rfl)]

/-- C9 witness: a concrete isolated node with one heat-flux condition hits
the unbound `area` read. -/
theorem zero_quadrant_area_unbound_witness :
    computeFD nodeC9w = .error areaUnboundMsg :=
  zero_quadrant_area_unbound nodeC9w rfl (by decide) (Or.inl rfl) (by decide)

/-- C4 (amended): for a node with override unset,
`compute_finite_difference` raises whenever the boundary-condition count is
outside \x7b0, 1, 2\x7d, and whenever the node has 4 complete quadrants and
at least one boundary condition. -/
theorem fd_structural_checks (nd : NodeData) (hov : nd.override = none) :
    (¬(nd.boundary_conditions.length = 0 ∨ nd.boundary_conditions.length = 1 ∨
        nd.boundary_conditions.length = 2) → computeFD nd = .error bcCountMsg) ∧
    (quadCount nd = 4 → 0 < nd.boundary_conditions.length →
      computeFD nd = .error bcCountMsg ∨ computeFD nd = .error interiorMsg) := by
  constructor
  · intro hbad
    unfold computeFD
    rw [hov]
    rw [if_pos hbad]
  · intro hq hpos
    by_cases hlen : nd.boundary_conditions.length = 0 ∨
        nd.boundary_conditions.length = 1 ∨ nd.boundary_conditions.length = 2
    · right
      unfold computeFD
      rw [hov]
      rw [if_neg (not_not_intro hlen), if_pos ⟨hq, hpos⟩]
    · left
      unfold computeFD
      rw [hov]
      rw [if_pos hlen]

/-- C4 counterexample: the claim as stated quantifies over every node, but
a node whose override is set returns the override and raises no error even
with three boundary conditions attached. -/
theorem fd_structural_checks_cx :
    computeFD nodeC4cx = .ok (LinExpr.ofRat 7) ∧
      nodeC4cx.boundary_conditions.length = 3 := by
  constructor
  · rfl
  · rfl

/-- C4 witness: a concrete override-free node with three boundary
conditions raises the count error. -/
theorem fd_structural_checks_witness : computeFD nodeC4w = .error bcCountMsg :=
  (fd_structural_checks nodeC4w rfl).1 (by decide)

/-- C1 (amended): for a node with override unset, one or two boundary
conditions among which a `ConstantTemperatureBC`, fewer than four complete
quadrants, and either the constant-temperature condition first in list
order or at least one complete quadrant, `compute_finite_difference`
returns exactly `symbolic_temp - v = 0` with `v` the value of the first
`ConstantTemperatureBC` in list order. -/
theorem constTemp_overrides_equation (nd : NodeData) (v : ℚ)
    (hov : nd.override = none)
    (hlen : nd.boundary_conditions.length = 1 ∨ nd.boundary_conditions.length = 2)
    (hfc : firstConstTemp nd.boundary_conditions = some v)
    (hq4 : quadCount nd ≠ 4)
    (hsafe : (∃ w, nd.boundary_conditions.head? = some (.constantTemperature w)) ∨
      quadCount nd ≠ 0) :
    computeFD nd = .ok ((LinExpr.sym nd.symbolic_temp).sub (LinExpr.ofRat v)) := by
  rw [computeFD_eq_branch nd hov (Or.inr hlen) (fun h => hq4 h.1)]
  rcases hlen with h1 | h2
  · obtain ⟨b, hb⟩ := List.length_eq_one.mp h1
    rw [h1, hb]
    rw [hb] at hfc
    cases b with
    | constantTemperature w =>
      simp only [firstConstTemp, Option.some.injEq] at hfc
      rw [bcLoop_const_cons, hfc]
    | convection hc T_inf => simp [firstConstTemp] at hfc
    | heatFlux q => simp [firstConstTemp] at hfc
  · obtain ⟨b1, b2, hb⟩ := List.length_eq_two.mp h2
    rw [h2, hb]
    by_cases hc1 : b1.isConstTemp = true
    · cases b1 with
      | constantTemperature w =>
        rw [hb] at hfc
        simp only [firstConstTemp, Option.some.injEq] at hfc
        rw [bcLoop_const_cons, hfc]
      | convection hc T_inf => simp [BC.isConstTemp] at hc1
      | heatFlux q => simp [BC.isConstTemp] at hc1
    · have hc1f : b1.isConstTemp = false := by simpa using hc1
      have hq0 : quadCount nd ≠ 0 := by
        rcases hsafe with ⟨w, hw⟩ | hq0
        · rw [hb] at hw
          simp only [List.head?_cons, Option.some.injEq] at hw
          rw [hw] at hc1f
          simp [BC.isConstTemp] at hc1f
        · exact hq0
      obtain ⟨a, ha⟩ := effArea_of_count_mid nd hq0 hq4
      rw [ha, bcLoop_nonconst_cons_two nd a _ b1 [b2] hc1f]
      have hfc2 : firstConstTemp [b2] = some v := by
        rw [hb] at hfc
        cases b1 with
        | constantTemperature w => simp [BC.isConstTemp] at hc1f
        | convection hc T_inf => exact hfc
        | heatFlux q => exact hfc
      cases b2 with
      | constantTemperature w =>
        simp only [firstConstTemp, Option.some.injEq] at hfc2
        rw [bcLoop_const_cons, hfc2]
      | convection hc T_inf => simp [firstConstTemp] at hfc2
      | heatFlux q => simp [firstConstTemp] at hfc2

/-- C1 counterexample: as stated the claim ranges over any neighbor
topology, but an interior node (four complete quadrants) carrying a
`ConstantTemperatureBC` raises the interior-node error instead of
returning an equation. -/
theorem constTemp_overrides_equation_cx :
    computeFD nodeC1cx = .error interiorMsg ∧
      firstConstTemp nodeC1cx.boundary_conditions = some 5 := by
  constructor
  · rfl
  · rfl

/-- C1 witness: a concrete node whose single boundary condition fixes the
temperature at 100 yields `symbolic_temp - 100`. -/
theorem constTemp_overrides_equation_witness :
    computeFD nodeC1w =
      .ok ((LinExpr.sym nodeC1w.symbolic_temp).sub (LinExpr.ofRat 100)) :=
  constTemp_overrides_equation nodeC1w 100 rfl (Or.inl rfl) rfl (by decide)
    (Or.inl ⟨100, rfl⟩)

/-- C2 (amended): with exactly two complete quadrants, the effective
boundary-exposed area is `delta_y` for a same-side-left or same-side-right
pair and `delta_x` for a same-side-up or same-side-down pair (swapped
relative to the claim), `delta_x + delta_y` for a diagonal pair, and
`(delta_x + delta_y)/2` for one or three complete quadrants. -/
theorem effArea_rule (nd : NodeData) :
    (quadCount nd = 2 →
      (((quadLU nd && quadLD nd) || (quadRU nd && quadRD nd)) = true →
          effArea nd = some nd.delta_y) ∧
      (((quadLU nd && quadRU nd) || (quadLD nd && quadRD nd)) = true →
          effArea nd = some nd.delta_x) ∧
      (((quadLU nd && quadRD nd) || (quadRU nd && quadLD nd)) = true →
          effArea nd = some (nd.delta_x + nd.delta_y))) ∧
    ((quadCount nd = 1 ∨ quadCount nd = 3) →
        effArea nd = some ((nd.delta_x + nd.delta_y) / 2)) := by
  unfold quadCount effArea
  cases h1 : quadLU nd <;> cases h2 : quadRU nd <;> cases h3 : quadLD nd <;>
      cases h4 : quadRD nd <;> simp [bcArea]

/-- C2 counterexample: for a same-side-left pair (`left_up` with
`left_down`) and spacing `delta_x = 1`, `delta_y = 2`, the code assigns
area `delta_y = 2`, not `delta_x = 1` as the claim states. -/
theorem effArea_rule_cx :
    bcArea true false true false 1 2 = some 2 ∧
      bcArea true false true false 1 2 ≠ some 1 := by
  constructor
  · rfl
  · decide

/-- C2 witness: a concrete node with both right-side quadrants complete
gets effective area `delta_y`. -/
theorem effArea_rule_witness : effArea nodeC2w = some nodeC2w.delta_y :=
  ((effArea_rule nodeC2w).1 (by decide)).1 (by decide)

/-- C3 (amended): `__getitem__` with a pair `(m, n)` checks `m` against
the width (x-axis) and `n` against the height (y-axis); in range it
returns the slot `nodes[n][m]`, out of range it raises `IndexError`. -/
theorem mGet_spec (msh : Mesh) (m n : Int) :
    (∀ (hn0 : 0 ≤ n) (hn : n < (msh.height : Int)) (hm0 : 0 ≤ m)
        (hm : m < (msh.width : Int)),
      mGet msh m n = .ok (msh.nodes ⟨n.toNat, by omega⟩ ⟨m.toNat, by omega⟩)) ∧
    (¬(0 ≤ n ∧ n < (msh.height : Int) ∧ 0 ≤ m ∧ m < (msh.width : Int)) →
      mGet msh m n = .error "Mesh index out of range") := by
  constructor
  · intro hn0 hn hm0 hm
    unfold mGet
    rw [dif_pos ⟨hn0, hn, hm0, hm⟩]
  · intro hbad
    unfold mGet
    rw [dif_neg hbad]

/-- C3 counterexample: on a 2-wide, 1-tall mesh, the pair `(0, 1)` — row 0
in range of the height, column 1 in range of the width under the claim's
`(row, col)` reading — raises `IndexError` instead of returning the cell,
because the code checks the second component against the height. -/
theorem mGet_spec_cx :
    mGet meshC3 0 1 = .error "Mesh index out of range" ∧
      (0 : Int) < (meshC3.height : Int) ∧ (1 : Int) < (meshC3.width : Int) := by
  refine ⟨by decide, by decide, by decide⟩

/-- C3 witness: the in-range access `(1, 0)` on the same mesh returns the
slot at row 0, column 1. -/
theorem mGet_spec_witness :
    mGet meshC3 1 0 = .ok (meshC3.nodes ⟨0, by decide⟩ ⟨1, by decide⟩) :=
  (mGet_spec meshC3 1 0).1 (by decide) (by decide) (by decide) (by decide)

/-- Rebuilding adjacency preserves slot occupancy. -/
theorem nodeAt_connect (msh : Mesh) (a b : Nat) :
    nodeAt (connect_neighbors msh) a b =
      (nodeAt msh a b).map (fun nd => { nd with neighbors := buildNbrs msh a b }) := by
  unfold nodeAt connect_neighbors
  by_cases h : a < msh.height ∧ b < msh.width
  · rw [dif_pos h, dif_pos h]
  · rw [dif_neg h, dif_neg h]
    rfl

/-- `nbrRef` only depends on the mesh through its dimensions and slot
occupancy, both preserved by `connect_neighbors`. -/
theorem nbrRef_connect (msh : Mesh) (i j : Nat) (di dj : Int) :
    nbrRef (connect_neighbors msh) i j di dj = nbrRef msh i j di dj := by
  unfold nbrRef connect_neighbors
  by_cases h : 0 ≤ (i : Int) + di ∧ (i : Int) + di < (msh.height : Int) ∧
      0 ≤ (j : Int) + dj ∧ (j : Int) + dj < (msh.width : Int)
  · rw [dif_pos h, dif_pos h]
    simp [Option.isSome_map]
  · rw [dif_neg h, dif_neg h]

/-- The neighbor map rebuilt after `connect_neighbors` is the same map. -/
theorem buildNbrs_connect (msh : Mesh) (i j : Nat) :
    buildNbrs (connect_neighbors msh) i j = buildNbrs msh i j := by
  unfold buildNbrs
  simp only [nbrRef_connect]

/-- Two meshes with the same dimensions, spacing, and slot contents are
equal. -/
theorem mesh_ext {m1 m2 : Mesh} (hw : m1.width = m2.width)
    (hh : m1.height = m2.height) (hdx : m1.delta_x = m2.delta_x)
    (hdy : m1.delta_y = m2.delta_y)
    (hn : ∀ i j, nodeAt m1 i j = nodeAt m2 i j) : m1 = m2 := by
  obtain ⟨w1, h1, dx1, dy1, f1⟩ := m1
  obtain ⟨w2, h2, dx2, dy2, f2⟩ := m2
  have hw' : w1 = w2 := hw
  have hh' : h1 = h2 := hh
  have hdx' : dx1 = dx2 := hdx
  have hdy' : dy1 = dy2 := hdy
  subst hw' hh' hdx' hdy'
  congr 1
  funext i j
  have hij := hn i.val j.val
  unfold nodeAt at hij
  rw [dif_pos ⟨i.isLt, j.isLt⟩, dif_pos ⟨i.isLt, j.isLt⟩] at hij
  exact hij

/-- C7: `connect_neighbors` is idempotent — re-running it on an unchanged
grid reproduces the identical neighbor map for every cell. -/
theorem connect_neighbors_idempotent (msh : Mesh) :
    connect_neighbors (connect_neighbors msh) = connect_neighbors msh := by
  refine mesh_ext rfl rfl rfl rfl (fun a b => ?_)
  rw [nodeAt_connect (connect_neighbors msh) a b, nodeAt_connect msh a b,
    buildNbrs_connect msh a b]
  cases nodeAt msh a b with
  | none => rfl
  | some nd => rfl

/-- The equation loop succeeds exactly when each cell's equation does, and
preserves order and length. -/
theorem computeAll_ok (l : List NodeData) (es : List LinExpr)
    (h : computeAll l = .ok es) :
    es.length = l.length ∧ ∀ i, i < l.length →
      ∃ nd e, l[i]? = some nd ∧ computeFD nd = .ok e ∧ es[i]? = some e := by
  induction l generalizing es with
  | nil =>
    simp only [computeAll, Except.ok.injEq] at h
    subst h
    exact ⟨rfl, fun i hi => absurd hi (by simp)⟩
  | cons nd rest ih =>
    cases hc : computeFD nd with
    | error e => simp [computeAll, hc] at h
    | ok e =>
      cases hr : computeAll rest with
      | error e2 => simp [computeAll, hc, hr] at h
      | ok es2 =>
        simp only [computeAll, hc, hr, Except.ok.injEq] at h
        subst h
        obtain ⟨hlen, hall⟩ := ih es2 hr
        refine ⟨by simp [hlen], ?_⟩
        intro i hi
        match i with
        | 0 => exact ⟨nd, e, by simp, hc, by simp⟩
        | i' + 1 =>
          obtain ⟨nd', e', h1, h2, h3⟩ := hall i' (by simpa using hi)
          exact ⟨nd', e', by simpa using h1, h2, by simpa using h3⟩

/-- The symbol-collecting loop of `build_matrix_equation` visits the grid
in the same row-major order as the equation-collecting loop. -/
theorem meshSymbols_eq (msh : Mesh) :
    meshSymbols msh = (activeNodes msh).map (fun nd => nd.symbolic_temp) := by
  unfold meshSymbols activeNodes
  simp only [List.map_flatMap, List.map_filterMap]

/-- C5: for a mesh whose assembly succeeds, the matrix form has exactly
`n` rows and `n` columns and `b` has `n` rows for the `n` active cells,
collected by the same row-major traversal, so the `i`-th rows of `A` and
`b` come from the governing equation of the cell owning the `i`-th unknown
symbol. -/
theorem build_matrix_correspondence (msh : Mesh) (A : List (List ℚ))
    (syms : List Sym) (b : List ℚ)
    (h : build_matrix_equation msh = .ok (A, syms, b)) :
    A.length = (activeNodes msh).length ∧
    syms.length = (activeNodes msh).length ∧
    b.length = (activeNodes msh).length ∧
    (∀ row ∈ A, row.length = (activeNodes msh).length) ∧
    (∀ i, i < (activeNodes msh).length →
      ∃ nd e, (activeNodes msh)[i]? = some nd ∧ computeFD nd = .ok e ∧
        syms[i]? = some nd.symbolic_temp ∧
        A[i]? = some (syms.map (fun s => e.coeff s)) ∧
        b[i]? = some (-e.const)) := by
  cases hg : get_finite_difference_equations msh with
  | error e => simp [build_matrix_equation, hg, bind, Except.bind] at h
  | ok eqs =>
    simp only [build_matrix_equation, hg, linear_eq_to_matrix, bind, Except.bind,
      Except.ok.injEq, Prod.mk.injEq] at h
    obtain ⟨hA, hsyms, hb⟩ := h
    subst hA hsyms hb
    unfold get_finite_difference_equations at hg
    obtain ⟨hlen, hall⟩ := computeAll_ok (activeNodes msh) eqs hg
    refine ⟨by simp [hlen], by simp [meshSymbols_eq], by simp [hlen], ?_, ?_⟩
    · intro row hrow
      obtain ⟨e, _, he⟩ := List.mem_map.mp hrow
      rw [← he]
      simp [meshSymbols_eq]
    · intro i hi
      obtain ⟨nd, e, h1, h2, h3⟩ := hall i hi
      refine ⟨nd, e, h1, h2, ?_, ?_, ?_⟩
      · simp [meshSymbols_eq, List.getElem?_map, h1]
      · simp [List.getElem?_map, h3]
      · simp [List.getElem?_map, h3]

/-- C5 witness: on a concrete 2-wide, 1-tall mesh the assembled system is
2-by-2 with its two rows matching the two unknowns. -/
theorem build_matrix_correspondence_witness :
    (activeNodes meshC5).length = 2 ∧
      ([[(0 : ℚ), 0], [0, 0]] : List (List ℚ)).length = (activeNodes meshC5).length :=
  ⟨by decide,
    (build_matrix_correspondence meshC5 [[0, 0], [0, 0]]
      [((0 : Int), (0 : Int)), ((1 : Int), (0 : Int))] [-5, 3] (by decide)).1⟩

/-- `clearNbrAt` preserves the grid height. -/
@[simp] theorem clearNbrAt_height (msh : Mesh) (i j : Nat) (di dj : Int)
    (rd : Dir) : (clearNbrAt msh i j di dj rd).height = msh.height := by
  unfold clearNbrAt
  dsimp only
  split <;> rfl

/-- `clearNbrAt` preserves the grid width. -/
@[simp] theorem clearNbrAt_width (msh : Mesh) (i j : Nat) (di dj : Int)
    (rd : Dir) : (clearNbrAt msh i j di dj rd).width = msh.width := by
  unfold clearNbrAt
  dsimp only
  split <;> rfl

/-- `connect_neighbors` preserves the grid height. -/
@[simp] theorem connect_height (msh : Mesh) :
    (connect_neighbors msh).height = msh.height := rfl

/-- `connect_neighbors` preserves the grid width. -/
@[simp] theorem connect_width (msh : Mesh) :
    (connect_neighbors msh).width = msh.width := rfl

/-- Reading a link after a single-entry assignment. -/
theorem Neighbors.get_set (nb : Neighbors) (rd d : Dir) (v : Option Pos) :
    (nb.set rd v).get d = if d = rd then v else nb.get d := by
  cases d <;> cases rd <;> simp [Neighbors.get, Neighbors.set]

/-- An occupied slot is in bounds. -/
theorem nodeAt_some_bounds (msh : Mesh) (a b : Nat) (nd : NodeData)
    (h : nodeAt msh a b = some nd) : a < msh.height ∧ b < msh.width := by
  unfold nodeAt at h
  by_cases hx : a < msh.height ∧ b < msh.width
  · exact hx
  · rw [dif_neg hx] at h
    cases h

/-- Inverting a set link installed by `connect_neighbors`. -/
theorem nbrRef_eq_some (msh : Mesh) (i j : Nat) (di dj : Int) (p : Pos)
    (h : nbrRef msh i j di dj = some p) :
    (p.1 : Int) = (i : Int) + di ∧ (p.2 : Int) = (j : Int) + dj ∧
      p.1 < msh.height ∧ p.2 < msh.width := by
  unfold nbrRef at h
  by_cases hB : 0 ≤ (i : Int) + di ∧ (i : Int) + di < (msh.height : Int) ∧
      0 ≤ (j : Int) + dj ∧ (j : Int) + dj < (msh.width : Int)
  · rw [dif_pos hB] at h
    split at h
    · rw [Option.some.injEq] at h
      subst h
      refine ⟨by omega, by omega, by omega, by omega⟩
    · cases h
  · rw [dif_neg hB] at h
    cases h

/-- In a mesh whose adjacency was built by `connect_neighbors`, a set link
always points one step away in its own direction, at an in-bounds
position. -/
theorem neighborRefAt_connect_eq_some (msh : Mesh) (a b : Nat) (d : Dir)
    (p : Pos) (h : neighborRefAt (connect_neighbors msh) a b d = some p) :
    a < msh.height ∧ b < msh.width ∧
      (p.1 : Int) = (a : Int) + connDi d ∧ (p.2 : Int) = (b : Int) + connDj d ∧
      p.1 < msh.height ∧ p.2 < msh.width := by
  unfold neighborRefAt at h
  rw [nodeAt_connect] at h
  cases hn : nodeAt msh a b with
  | none => rw [hn] at h; cases h
  | some nd =>
    rw [hn] at h
    simp only [Option.map_some'] at h
    obtain ⟨hA, hB⟩ := nodeAt_some_bounds msh a b nd hn
    refine ⟨hA, hB, ?_⟩
    cases d <;> simp only [buildNbrs, Neighbors.get] at h <;>
      simp only [connDi, connDj] <;>
      exact ⟨(nbrRef_eq_some _ _ _ _ _ _ h).1, (nbrRef_eq_some _ _ _ _ _ _ h).2.1,
        (nbrRef_eq_some _ _ _ _ _ _ h).2.2.1, (nbrRef_eq_some _ _ _ _ _ _ h).2.2.2⟩

/-- The pointwise effect of one `_clear_neighbor_references` iteration on
the stored links. -/
theorem neighborRefAt_clearNbrAt (msh : Mesh) (i j : Nat) (di dj : Int)
    (rd : Dir) (a b : Nat) (d : Dir) :
    neighborRefAt (clearNbrAt msh i j di dj rd) a b d =
      if 0 ≤ (i : Int) + di ∧ (i : Int) + di < (msh.height : Int) ∧
          0 ≤ (j : Int) + dj ∧ (j : Int) + dj < (msh.width : Int) ∧
          (a : Int) = (i : Int) + di ∧ (b : Int) = (j : Int) + dj ∧ d = rd
      then none else neighborRefAt msh a b d := by
  unfold clearNbrAt
  dsimp only
  by_cases hB : 0 ≤ (i : Int) + di ∧ (i : Int) + di < (msh.height : Int) ∧
      0 ≤ (j : Int) + dj ∧ (j : Int) + dj < (msh.width : Int)
  · rw [if_pos hB]
    unfold neighborRefAt nodeAt
    by_cases hab : a < msh.height ∧ b < msh.width
    · rw [dif_pos hab, dif_pos hab]
      dsimp only
      by_cases hij : (a : Int) = (i : Int) + di ∧ (b : Int) = (j : Int) + dj
      · rw [if_pos hij]
        cases hs : msh.nodes ⟨a, hab.1⟩ ⟨b, hab.2⟩ with
        | none =>
          simp only [Option.map_none']
          split <;> rfl
        | some nd =>
          simp only [Option.map_some']
          rw [Neighbors.get_set]
          by_cases hd : d = rd
          · rw [if_pos hd, if_pos ⟨hB.1, hB.2.1, hB.2.2.1, hB.2.2.2, hij.1, hij.2, hd⟩]
          · rw [if_neg hd, if_neg (fun hC => hd hC.2.2.2.2.2.2)]
      · rw [if_neg hij, if_neg (fun hC => hij ⟨hC.2.2.2.2.1, hC.2.2.2.2.2.1⟩)]
    · rw [dif_neg hab, dif_neg hab]
      simp
  · rw [if_neg hB]
    rw [if_neg (fun hC => hB ⟨hC.1, hC.2.1, hC.2.2.1, hC.2.2.2.1⟩)]

/-- Eliminating a guarded cleared link. -/
theorem if_none_eq_some {α : Type} {c : Prop} [Decidable c] {x : Option α}
    {y : α} (h : (if c then none else x) = some y) : ¬c ∧ x = some y := by
  by_cases hc : c
  · rw [if_pos hc] at h
    cases h
  · rw [if_neg hc] at h
    exact ⟨hc, h⟩

/-- Vacating a slot removes its cell; other slots keep their links. -/
theorem neighborRefAt_removeAt (msh : Mesh) (i j a b : Nat) (d : Dir) :
    neighborRefAt (removeAt msh i j) a b d =
      if a = i ∧ b = j then none else neighborRefAt msh a b d := by
  unfold removeAt neighborRefAt nodeAt
  by_cases hab : a < msh.height ∧ b < msh.width
  · rw [dif_pos hab, dif_pos hab]
    dsimp only
    by_cases hij : a = i ∧ b = j
    · rw [if_pos hij, if_pos hij]
    · rw [if_neg hij, if_neg hij]
  · rw [dif_neg hab, dif_neg hab]
    simp

/-- C6: after clearing neighbor references to `(i, j)` and vacating the
slot on a mesh whose adjacency was built by `connect_neighbors`, no
remaining cell's neighbor map references the removed cell in any of the 8
directions. -/
theorem remove_clears_all_references (m0 : Mesh) (i j : Nat)
    (hi : i < m0.height) (hj : j < m0.width) (a b : Nat) (d : Dir) :
    neighborRefAt
        (removeAt (clear_neighbor_references (connect_neighbors m0) i j) i j)
        a b d ≠ some (i, j) := by
  intro h
  rw [neighborRefAt_removeAt] at h
  obtain ⟨hne, h⟩ := if_none_eq_some h
  unfold clear_neighbor_references at h
  simp only [neighborRefAt_clearNbrAt, clearNbrAt_height, clearNbrAt_width,
    connect_height, connect_width] at h
  obtain ⟨hc1, h⟩ := if_none_eq_some h
  obtain ⟨hc2, h⟩ := if_none_eq_some h
  obtain ⟨hc3, h⟩ := if_none_eq_some h
  obtain ⟨hc4, h⟩ := if_none_eq_some h
  obtain ⟨hc5, h⟩ := if_none_eq_some h
  obtain ⟨hc6, h⟩ := if_none_eq_some h
  obtain ⟨hc7, h⟩ := if_none_eq_some h
  obtain ⟨hc8, h⟩ := if_none_eq_some h
  obtain ⟨hA, hB, h1, h2, h3, h4⟩ := neighborRefAt_connect_eq_some m0 a b d (i, j) h
  cases d <;> simp only [connDi, connDj] at h1 h2
  case up => exact hc8 ⟨by omega, by omega, by omega, by omega, by omega, by omega, rfl⟩
  case down => exact hc7 ⟨by omega, by omega, by omega, by omega, by omega, by omega, rfl⟩
  case left => exact hc5 ⟨by omega, by omega, by omega, by omega, by omega, by omega, rfl⟩
  case right => exact hc6 ⟨by omega, by omega, by omega, by omega, by omega, by omega, rfl⟩
  case left_down => exact hc1 ⟨by omega, by omega, by omega, by omega, by omega, by omega, rfl⟩
  case left_up => exact hc2 ⟨by omega, by omega, by omega, by omega, by omega, by omega, rfl⟩
  case right_down => exact hc3 ⟨by omega, by omega, by omega, by omega, by omega, by omega, rfl⟩
  case right_up => exact hc4 ⟨by omega, by omega, by omega, by omega, by omega, by omega, rfl⟩

/-- C6 witness: on a concrete 2-by-2 mesh, after removing cell `(0, 0)` the
cell at `(1, 1)` no longer references it. -/
theorem remove_clears_all_references_witness :
    neighborRefAt
        (removeAt (clear_neighbor_references (connect_neighbors meshC6) 0 0) 0 0)
        1 1 .left_down ≠ some (0, 0) :=
  remove_clears_all_references meshC6 0 0 (by decide) (by decide) 1 1 .left_down

end Thermal


